import Mathlib

/-!
Verification of the llm-foundry evaluation core: the ICL task resolver and
metric-key generation (`llmfoundry/utils/builders.py`), the markdown report
builder and retrying model loaders (`scripts/eval/eval.py`), and the
composite "gauntlet" scorer (modelled from the specification, since the
callback class itself is not among the sources).

Machine integers are modelled as `Nat`; metric values (Python floats holding
accuracies) as `ℚ`; Python exceptions as `Except`; a Python attribute that
may be absent as `Option`.
-/

namespace LlmFoundry

/-- A raw ICL task entry as it arrives from YAML / inline config.  Every
field is optional at this stage (`Option`); `dataset_uri` distinguishes an
absent key from a present-but-null value (`Option (Option String)`). -/
structure RawCfg where
  label : Option String
  dataset_uri : Option (Option String)
  icl_task_type : Option String
  num_fewshot : Option (List Nat)
  metric_names : Option (List String)
  prompt_string : Option String
  example_delimiter : Option String
  continuation_delimiter : Option String
  max_seq_len : Option Nat
  batch_size : Option Nat
  pass_at_k : Option Nat
  num_beams : Option Nat
  has_categories : Option Bool
  deriving Repr, DecidableEq

/-- A fully resolved task configuration: the state of the config after
`_validate_cfg` has run (all required fields checked, all optional fields
filled in).  `has_categories` stays optional because the source reads it
with `hasattr` / `.get('has_categories', False)`. -/
structure TaskCfg where
  label : String
  dataset_uri : String
  icl_task_type : String
  num_fewshot : List Nat
  metric_names : List String
  prompt_string : String
  example_delimiter : String
  continuation_delimiter : String
  max_seq_len : Nat
  batch_size : Nat
  pass_at_k : Nat
  num_beams : Nat
  has_categories : Option Bool
  deriving Repr, DecidableEq

/-- `_validate_cfg` from `llmfoundry/utils/builders.py` (lines 202-241).
The four leading `assert`s become errors naming the asserted field; the
unknown-task-type branch reproduces the `ValueError` message.  Mutation of
the `DictConfig` in place becomes construction of a resolved `TaskCfg`. -/
def validate_cfg (default_max_seq_len default_batch_size : Nat)
    (cfg : RawCfg) : Except String TaskCfg :=
  match cfg.label with
  | none => .error "label"
  | some label =>
    match cfg.dataset_uri with
    | none => .error "dataset_uri"
    | some none => .error "dataset_uri"
    | some (some uri) =>
      match cfg.icl_task_type with
      | none => .error "icl_task_type"
      | some taskType =>
        match cfg.num_fewshot with
        | none => .error "num_fewshot"
        | some fewshots =>
          let metricsOrErr : Except String (List String) :=
            match cfg.metric_names with
            | some ms => .ok ms
            | none =>
              if taskType = "language_modeling" then
                .ok ["InContextLearningLMAccuracy"]
              else if taskType = "multiple_choice" then
                .ok ["InContextLearningMultipleChoiceAccuracy"]
              else if taskType = "schema" then
                .ok ["InContextLearningMultipleChoiceAccuracy"]
              else if taskType = "question_answering" then
                .ok ["InContextLearningQAAccuracy"]
              else if taskType = "code_evaluation" then
                .ok ["InContextLearningCodeEvalAccuracy"]
              else
                .error ("No metric_names defined, unable to build default metrics for icl_task_type="
                  ++ taskType ++ ".")
          match metricsOrErr with
          | .error e => .error e
          | .ok metricNames =>
            .ok { label := label
                  dataset_uri := uri
                  icl_task_type := taskType
                  num_fewshot := fewshots
                  metric_names := metricNames
                  prompt_string := cfg.prompt_string.getD ""
                  example_delimiter := cfg.example_delimiter.getD "\n"
                  continuation_delimiter := cfg.continuation_delimiter.getD " "
                  max_seq_len := cfg.max_seq_len.getD default_max_seq_len
                  batch_size := cfg.batch_size.getD default_batch_size
                  pass_at_k := cfg.pass_at_k.getD 1
                  num_beams := cfg.num_beams.getD 20
                  has_categories := cfg.has_categories }

/-- The value returned by the external `get_icl_task_dataloader` collaborator:
either a single dataloader, or (when categorized) a mapping from subcategory
name to dataloader.  Only the ordered subcategory names are relevant to key
generation, so the mapping is abstracted to its key list (Python dicts
iterate in insertion order). -/
inductive LoaderResult where
  | single : LoaderResult
  | categorized : List String → LoaderResult
  deriving Repr, DecidableEq

/-- A composer `Evaluator` as constructed by `build_icl_evaluators`: only the
fields the source sets and the claims mention (label, metric names, and the
optional subset cap, which is passed only for uncategorized evaluators). -/
structure Evaluator where
  label : String
  metric_names : List String
  subset_num_batches : Option Nat
  deriving Repr, DecidableEq

/-- The task/fewshot loop of `build_icl_evaluators`
(`llmfoundry/utils/builders.py` lines 243-297), with the two mutable lists
`evaluators` and `logger_keys` as explicit accumulators.  The dataloader
collaborator is a parameter `loader`; the categorized branch is taken exactly
when `has_categories` is present and true and the collaborator returned a
mapping, mirroring `hasattr(...) and icl_cfg.has_categories and
isinstance(dataloaders, dict)`.  The stale-file deletion and distributed
barrier (lines 255-258) are filesystem side effects with no bearing on the
returned values and are not modelled. -/
def category_step (label : String) (metricNames : List String)
    (acc2 : List Evaluator × List String) (c : String) :
    List Evaluator × List String :=
  (acc2.1 ++ [⟨label ++ "/" ++ c, metricNames, none⟩],
   acc2.2 ++ metricNames.map
     (fun m => "metrics/" ++ label ++ "/" ++ c ++ "/" ++ m))

/-- The body of `for num_fewshot in list(icl_cfg.num_fewshot)` (lines
246-295): build the fewshot label, call the dataloader collaborator, and
append evaluator units and logger keys for this (task, fewshot) pair.  In
the categorized branch `category_step` handles the
`for category in dataloaders.keys()` loop (lines 280-287, key extension on
line 281 and evaluator append on line 284); the other branch is lines
288-295, the only place the subset cap is attached. -/
def fewshot_step (loader : TaskCfg → Nat → LoaderResult) (subset : Option Nat)
    (t : TaskCfg) (acc : List Evaluator × List String) (n : Nat) :
    List Evaluator × List String :=
  let label := t.label ++ "/" ++ toString n ++ "-shot"
  let metricNames := t.metric_names
  match t.has_categories, loader t n with
  | some true, .categorized cats =>
    cats.foldl (category_step label metricNames) acc
  | _, _ =>
    (acc.1 ++ [⟨label, metricNames, subset⟩],
     acc.2 ++ metricNames.map (fun m => "metrics/" ++ label ++ "/" ++ m))

def build_icl_loop (loader : TaskCfg → Nat → LoaderResult) (subset : Option Nat)
    (dmsl dbs : Nat) :
    List RawCfg → List Evaluator → List String →
    Except String (List Evaluator × List String)
  | [], evaluators, logger_keys => .ok (evaluators, logger_keys)
  | cfg :: rest, evaluators, logger_keys =>
    match validate_cfg dmsl dbs cfg with
    | .error e => .error e
    | .ok t =>
      let acc := t.num_fewshot.foldl (fewshot_step loader subset t)
        (evaluators, logger_keys)
      build_icl_loop loader subset dmsl dbs rest acc.1 acc.2

/-- `build_icl_evaluators` (`llmfoundry/utils/builders.py` lines 179-297):
validates/resolves every raw task entry and builds the evaluator units and
the canonical `logger_keys`, starting from two empty lists. -/
def build_icl_evaluators (cfgs : List RawCfg)
    (loader : TaskCfg → Nat → LoaderResult)
    (default_max_seq_len default_batch_size : Nat)
    (icl_subset_num_batches : Option Nat) :
    Except String (List Evaluator × List String) :=
  build_icl_loop loader icl_subset_num_batches default_max_seq_len
    default_batch_size cfgs [] []

/-- Sequential validation of a whole task list: the per-entry behaviour of
the `for icl_cfg in icl_tasks_list` loop head (`_validate_cfg(icl_cfg)` on
line 245), stopping at the first failing entry. -/
def validate_all (dmsl dbs : Nat) : List RawCfg → Except String (List TaskCfg)
  | [] => .ok []
  | cfg :: rest =>
    match validate_cfg dmsl dbs cfg with
    | .error e => .error e
    | .ok t => (validate_all dmsl dbs rest).map (fun ts => t :: ts)

/-- The metric keys of one evaluator unit, in the wire format exactly as the
specification states it: `metrics/{label}/{fewshot}-shot/{metric_name}` for
an uncategorized unit and
`metrics/{label}/{fewshot}-shot/{subcategory}/{metric_name}` for a
categorized one, one key per metric name in `metric_names` order.  Written
from the spec's words, to be compared with what `build_icl_evaluators`
actually emits. -/
def specUnitKeys (loader : TaskCfg → Nat → LoaderResult) (t : TaskCfg)
    (n : Nat) : List String :=
  match t.has_categories, loader t n with
  | some true, .categorized cats =>
    cats.flatMap (fun c => t.metric_names.map
      (fun m => "metrics/" ++ t.label ++ "/" ++ toString n ++ "-shot/"
        ++ c ++ "/" ++ m))
  | _, _ =>
    t.metric_names.map
      (fun m => "metrics/" ++ t.label ++ "/" ++ toString n ++ "-shot/" ++ m)

/-- The evaluator units of one (task, fewshot) pair in creation order: one
unit, or one per subcategory when categorized; the subset cap is attached
only to uncategorized units, as in the source. -/
def specUnitEvaluators (loader : TaskCfg → Nat → LoaderResult)
    (subset : Option Nat) (t : TaskCfg) (n : Nat) : List Evaluator :=
  match t.has_categories, loader t n with
  | some true, .categorized cats =>
    cats.map (fun c =>
      ⟨t.label ++ "/" ++ toString n ++ "-shot/" ++ c, t.metric_names, none⟩)
  | _, _ =>
    [⟨t.label ++ "/" ++ toString n ++ "-shot", t.metric_names, subset⟩]

/-- All metric keys of one resolved task, over its fewshot values in order. -/
def specTaskKeys (loader : TaskCfg → Nat → LoaderResult) (t : TaskCfg) :
    List String :=
  t.num_fewshot.flatMap (specUnitKeys loader t)

/-- All evaluator units of one resolved task, over its fewshot values. -/
def specTaskEvaluators (loader : TaskCfg → Nat → LoaderResult)
    (subset : Option Nat) (t : TaskCfg) : List Evaluator :=
  t.num_fewshot.flatMap (specUnitEvaluators loader subset t)

/-- Witness fixture: the `jeopardy` task entry from the gauntlet test
(categorized, 10-shot, language modeling, custom continuation delimiter). -/
def wCfgJeopardy : RawCfg :=
  { label := some "jeopardy"
    dataset_uri := some (some "eval/local_data/world_knowledge/jeopardy_all.jsonl")
    icl_task_type := some "language_modeling"
    num_fewshot := some [10]
    metric_names := none
    prompt_string := none
    example_delimiter := none
    continuation_delimiter := some "\nAnswer: "
    max_seq_len := none
    batch_size := none
    pass_at_k := none
    num_beams := none
    has_categories := some true }

/-- Witness fixture: the `bigbench_qa_wikidata` task entry from the gauntlet
test (uncategorized, 10-shot, language modeling). -/
def wCfgWikidata : RawCfg :=
  { label := some "bigbench_qa_wikidata"
    dataset_uri := some (some "eval/local_data/world_knowledge/bigbench_qa_wikidata.jsonl")
    icl_task_type := some "language_modeling"
    num_fewshot := some [10]
    metric_names := none
    prompt_string := none
    example_delimiter := none
    continuation_delimiter := none
    max_seq_len := none
    batch_size := none
    pass_at_k := none
    num_beams := none
    has_categories := none }

/-- Witness fixture: `wCfgJeopardy` after resolution with defaults 1024/4. -/
def wTaskJeopardy : TaskCfg :=
  { label := "jeopardy"
    dataset_uri := "eval/local_data/world_knowledge/jeopardy_all.jsonl"
    icl_task_type := "language_modeling"
    num_fewshot := [10]
    metric_names := ["InContextLearningLMAccuracy"]
    prompt_string := ""
    example_delimiter := "\n"
    continuation_delimiter := "\nAnswer: "
    max_seq_len := 1024
    batch_size := 4
    pass_at_k := 1
    num_beams := 20
    has_categories := some true }

/-- Witness fixture: `wCfgWikidata` after resolution with defaults 1024/4. -/
def wTaskWikidata : TaskCfg :=
  { label := "bigbench_qa_wikidata"
    dataset_uri := "eval/local_data/world_knowledge/bigbench_qa_wikidata.jsonl"
    icl_task_type := "language_modeling"
    num_fewshot := [10]
    metric_names := ["InContextLearningLMAccuracy"]
    prompt_string := ""
    example_delimiter := "\n"
    continuation_delimiter := " "
    max_seq_len := 1024
    batch_size := 4
    pass_at_k := 1
    num_beams := 20
    has_categories := none }

/-- Witness fixture: a dataloader collaborator that returns a two-category
mapping for `jeopardy` and a single dataloader for every other task. -/
def wLoader : TaskCfg → Nat → LoaderResult := fun t _ =>
  if t.label = "jeopardy" then .categorized ["american_history", "science"]
  else .single

/-- Witness fixture: a raw entry whose `icl_task_type` key is absent. -/
def wCfgNoTaskType : RawCfg :=
  { label := some "lambada_openai"
    dataset_uri := some (some "eval/local_data/language_understanding/lambada_openai.jsonl")
    icl_task_type := none
    num_fewshot := some [0]
    metric_names := none
    prompt_string := none
    example_delimiter := none
    continuation_delimiter := none
    max_seq_len := none
    batch_size := none
    pass_at_k := none
    num_beams := none
    has_categories := none }

/-- The retry loop shared verbatim by `load_model` (`scripts/eval/eval.py`
lines 72-91) and `load_peft_model` (lines 45-69): `retries` starts at 0;
while `retries < num_retries` one construction attempt is made (the external
model construction, abstracted as `attempt retries`); success returns the
model, failure increments `retries`, re-raises the exception once
`retries >= num_retries`, and otherwise prints a diagnostic and loops.
Falling out of the loop (possible only when `num_retries = 0`) returns
Python's implicit `None`. -/
def retry_loop {E M : Type} (attempt : Nat → Except E M)
    (num_retries retries : Nat) : Except E (Option M) :=
  if _h : retries < num_retries then
    match attempt retries with
    | .ok m => .ok (some m)
    | .error e =>
      if retries + 1 ≥ num_retries then .error e
      else retry_loop attempt num_retries (retries + 1)
  else .ok none
termination_by num_retries - retries
decreasing_by omega

/-- `load_model` (`scripts/eval/eval.py` lines 72-91): model construction
under the retry loop, with `COMPOSER_MODEL_REGISTRY[...](...)` abstracted
as `attempt`. -/
def load_model {E M : Type} (attempt : Nat → Except E M)
    (num_retries : Nat) : Except E (Option M) :=
  retry_loop attempt num_retries 0

/-- `load_peft_model` (`scripts/eval/eval.py` lines 45-69): the same retry
loop around the three-step PEFT model construction, abstracted as
`attempt`. -/
def load_peft_model {E M : Type} (attempt : Nat → Except E M)
    (num_retries : Nat) : Except E (Option M) :=
  retry_loop attempt num_retries 0

/-- One accuracy record in the report grouping: the computed metric value
and the subcategory tag (`'no_subcat'` when the dataloader name has no
subcategory component). -/
structure SubScore where
  val : ℚ
  subcat : String
  deriving Repr, DecidableEq

/-- The nested grouping `results[num_shot][benchmark][metric_name]` of
`calculate_markdown_results`, as insertion-ordered association lists
(Python dicts preserve insertion order). -/
abbrev Results :=
  List (String × List (String × List (String × List SubScore)))

/-- Ordered-dictionary update: modify the entry at `k` in place if present,
append a fresh entry otherwise (Python `d[k] = ...` semantics). -/
def upsert {α : Type} (k : String) (f : Option α → α) :
    List (String × α) → List (String × α)
  | [] => [(k, f none)]
  | (k', v) :: rest =>
    if k' = k then (k', f (some v)) :: rest else (k', v) :: upsert k f rest

/-- Python's substring containment `pat in s` for a non-empty pattern:
splitting on the pattern yields more than one piece exactly when the
pattern occurs. -/
def contains_substr (s pat : String) : Bool :=
  1 < (s.splitOn pat).length

/-- Processing of one logger key by `calculate_markdown_results`
(`scripts/eval/eval.py` lines 309-333): split the key on `/` into the
dataloader-name components (`key.split('/')[1:-1]`) and the metric name
(last component); skip metric names not containing the substring
`Accuracy`; look the metric up in `trainer.state.eval_metrics` (the
`store`, with `compute()` folded into the stored rational) and skip when
absent; then append a `{val, subcat}` record under
`results[dl_name[1]][dl_name[0]][metric_name]`.  A `dl_name` with fewer
than two components makes Python raise an IndexError, modelled as an
error value. -/
def collect_key (store : String → String → Option ℚ)
    (results : Results) (key : String) : Except String Results :=
  let parts := key.splitOn "/"
  let dl_name := (parts.drop 1).dropLast
  let metric_name := parts.getLastD ""
  if ¬ contains_substr metric_name "Accuracy" then .ok results
  else
    match store (String.intercalate "/" dl_name) metric_name with
    | none => .ok results
    | some v =>
      match dl_name with
      | benchmark :: num_shot :: _ =>
        let subcat :=
          if dl_name.length = 3 then dl_name.getLastD "" else "no_subcat"
        .ok (upsert num_shot (fun bmap =>
          upsert benchmark (fun mmap =>
            upsert metric_name (fun recs =>
              recs.getD [] ++ [⟨v, subcat⟩]) (mmap.getD [])) (bmap.getD []))
          results)
      | _ => .error "IndexError"

/-- The `for key in metric_keys` loop of `calculate_markdown_results`,
threading the nested `results` grouping through `collect_key`. -/
def collect_results (store : String → String → Option ℚ) :
    List String → Results → Except String Results
  | [], results => .ok results
  | key :: rest, results =>
    match collect_key store results key with
    | .error e => .error e
    | .ok results => collect_results store rest results

/-- One row of the markdown results table (`scripts/eval/eval.py` lines
335-338): the `Category`, `Benchmark`, `Subtask`, `Accuracy`,
`Number few shot` and `Model` columns. -/
structure ReportRow where
  category : String
  benchmark : Option String
  subtask : Option String
  accuracy : ℚ
  number_few_shot : String
  model : String
  deriving Repr, DecidableEq

/-- The per-subscore row append of the multi-record branch
(`scripts/eval/eval.py` lines 370-386): subtask rows carry the
subcategory label and no benchmark name. -/
def subscore_step (cat num_shot model : String) (df : List ReportRow)
    (s : SubScore) : List ReportRow :=
  df ++ [{ category := cat
           benchmark := none
           subtask := some s.subcat
           accuracy := s.val
           number_few_shot := num_shot
           model := model }]

/-- The body of `for metric in results[num_shot][benchmark]`
(`scripts/eval/eval.py` lines 342-386): one plain row for a single-record
group, otherwise an `Average` row followed by one row per record. -/
def metric_step (btax : List (String × String)) (model num_shot bench : String)
    (df : List ReportRow) (mEntry : String × List SubScore) :
    List ReportRow :=
  let subscores := mEntry.2
  if subscores.length = 1 then
    df ++ [{ category := (btax.lookup bench).getD ""
             benchmark := some bench
             subtask := none
             accuracy := (subscores.headD ⟨0, ""⟩).val
             number_few_shot := num_shot
             model := model }]
  else
    let df := df ++ [{ category := (btax.lookup bench).getD ""
                       benchmark := some bench
                       subtask := some "Average"
                       accuracy :=
                         (subscores.map SubScore.val).sum / subscores.length
                       number_few_shot := num_shot
                       model := model }]
    subscores.foldl (subscore_step ((btax.lookup bench).getD "") num_shot model)
      df

/-- The `for benchmark in results[num_shot]` loop (line 341). -/
def benchmark_step (btax : List (String × String)) (model num_shot : String)
    (df : List ReportRow)
    (bEntry : String × List (String × List SubScore)) : List ReportRow :=
  bEntry.2.foldl (metric_step btax model num_shot bEntry.1) df

/-- The `for num_shot in results` loop (line 340). -/
def numshot_step (btax : List (String × String)) (model : String)
    (df : List ReportRow)
    (nsEntry : String × List (String × List (String × List SubScore))) :
    List ReportRow :=
  nsEntry.2.foldl (benchmark_step btax model nsEntry.1) df

/-- The table-building phase of `calculate_markdown_results` (lines
335-387): rows accumulate into the dataframe via repeated `pd.concat`. -/
def render_results (btax : List (String × String)) (model : String)
    (res : Results) : List ReportRow :=
  res.foldl (numshot_step btax model) []

/-- `calculate_markdown_results` (`scripts/eval/eval.py` lines 304-387):
group the accuracy metrics, then render the table. -/
def calculate_markdown_results (metric_keys : List String)
    (store : String → String → Option ℚ)
    (benchmark_to_taxonomy : List (String × String)) (model_name : String) :
    Except String (List ReportRow) :=
  (collect_results store metric_keys []).map
    (render_results benchmark_to_taxonomy model_name)

/-- The rows one (fewshot, benchmark, metric) group contributes to the
report, as the specification describes them: a group with exactly one
record yields one row with `Subtask = None` carrying that record's value; a
group with N > 1 records yields an `Average` row whose accuracy is the mean
of the N values followed by one row per record carrying its subcategory
label.  Written from the spec's words, to be compared with what
`render_results` actually produces. -/
def group_rows (btax : List (String × String)) (model num_shot bench : String)
    (subscores : List SubScore) : List ReportRow :=
  if subscores.length = 1 then
    [{ category := (btax.lookup bench).getD ""
       benchmark := some bench
       subtask := none
       accuracy := (subscores.headD ⟨0, ""⟩).val
       number_few_shot := num_shot
       model := model }]
  else
    { category := (btax.lookup bench).getD ""
      benchmark := some bench
      subtask := some "Average"
      accuracy := (subscores.map SubScore.val).sum / subscores.length
      number_few_shot := num_shot
      model := model } ::
      subscores.map (fun s =>
        { category := (btax.lookup bench).getD ""
          benchmark := none
          subtask := some s.subcat
          accuracy := s.val
          number_few_shot := num_shot
          model := model })

/-- Modelled from the spec: `BenchmarkDescriptor` (§3), a taxonomy leaf —
the `EvalGauntlet`/`ModelGauntlet` callback class itself is not among the
source files, only its test and callers. -/
structure Benchmark where
  name : String
  num_fewshot : Nat
  random_baseline : ℚ
  deriving Repr, DecidableEq

/-- Modelled from the spec: `CategoryDescriptor` (§3), a named ordered list
of benchmarks. -/
structure Category where
  name : String
  benchmarks : List Benchmark
  deriving Repr, DecidableEq

/-- Modelled from the spec: `Taxonomy` (§3) — ordered categories plus the
scoring-policy flags; `weighting` is omitted since only `EQUAL` exists. -/
structure Taxonomy where
  categories : List Category
  subtract_random_baseline : Bool
  rescale_accuracy : Bool
  deriving Repr, DecidableEq

/-- Modelled from the spec: the lossless decomposition of a canonical
metric key (§3 MetricKey, §4.3 step 1) into benchmark name, fewshot count,
optional subcategory and metric name, along with the dataloader label (the
`/`-joined middle components) under which the metric store is addressed. -/
structure DecomposedKey where
  benchmark : String
  num_fewshot : Nat
  subcategory : Option String
  metric : String
  dl_label : String
  deriving Repr, DecidableEq

/-- Split a character list at every occurrence of a separator (the
character-level analogue of Python's `str.split`), by structural recursion
so that concrete keys evaluate inside the kernel. -/
def split_chars (sep : Char) : List Char → List (List Char)
  | [] => [[]]
  | c :: cs =>
    let r := split_chars sep cs
    if c = sep then [] :: r
    else
      match r with
      | h :: t => (c :: h) :: t
      | [] => [[c]]

/-- Split a string on `/` into its components. -/
def split_on_slash (s : String) : List String :=
  (split_chars (Char.ofNat 47) s.data).map String.mk

/-- Parse a non-empty all-digit character list as a decimal number. -/
def digits_to_nat : List Char → Option Nat
  | [] => none
  | l => l.foldl (fun acc c => acc.bind (fun n =>
      if c.isDigit then some (n * 10 + (c.toNat - 48)) else none)) (some 0)

/-- Modelled from the spec: parse the `{fewshot}-shot` component of a
metric key back into the fewshot count. -/
def parse_fewshot (s : String) : Option Nat :=
  let suffix := "-shot".data
  let l := s.data
  if suffix.length ≤ l.length ∧ l.drop (l.length - suffix.length) = suffix
  then digits_to_nat (l.take (l.length - suffix.length))
  else none

/-- Modelled from the spec: decompose a `logger_keys` entry of the wire
format `metrics/{label}/{fewshot}-shot[/{subcategory}]/{metric_name}`
(§4.3 step 1); keys of any other shape decompose to `none`. -/
def decompose_key (k : String) : Option DecomposedKey :=
  match split_on_slash k with
  | ["metrics", bench, shot, metric] =>
    (parse_fewshot shot).map
      (fun n => ⟨bench, n, none, metric, bench ++ "/" ++ shot⟩)
  | ["metrics", bench, shot, sub, metric] =>
    (parse_fewshot shot).map
      (fun n => ⟨bench, n, some sub, metric,
        bench ++ "/" ++ shot ++ "/" ++ sub⟩)
  | _ => none

/-- Modelled from the spec: the index entry for one benchmark (§4.3 steps
1-2) — the decomposed keys whose (benchmark name, fewshot) matches it. -/
def matched_keys (keys : List String) (b : Benchmark) : List DecomposedKey :=
  (keys.filterMap decompose_key).filter
    (fun d => d.benchmark == b.name && d.num_fewshot == b.num_fewshot)

/-- Arithmetic mean of a list of rationals (equal weighting). -/
def mean (l : List ℚ) : ℚ := l.sum / l.length

/-- Modelled from the spec: baseline rescaling of one raw metric value
(§4.3 step 3): `(value - baseline) / (1 - baseline)` when both
`subtract_random_baseline` and `rescale_accuracy` are set,
`value - baseline` when only the former, the raw value otherwise. -/
def rescale_value (subtract rescale : Bool) (baseline v : ℚ) : ℚ :=
  if subtract && rescale then (v - baseline) / (1 - baseline)
  else if subtract then v - baseline
  else v

/-- Modelled from the spec: the score of one benchmark (§4.3 steps 2-4):
`none` (skip) when no key matches, otherwise the mean of the rescaled
store values of all matched keys (a single matched key gives its own
value, the mean of a singleton). -/
def benchmark_score (subtract rescale : Bool) (store : String → String → ℚ)
    (keys : List String) (b : Benchmark) : Option ℚ :=
  match matched_keys keys b with
  | [] => none
  | ds => some (mean (ds.map (fun d =>
      rescale_value subtract rescale b.random_baseline
        (store d.dl_label d.metric))))

/-- Modelled from the spec: the score of one category (§4.3 step 5): the
mean of the scores of its matched benchmarks, undefined (`none`) when every
benchmark was skipped. -/
def category_score (subtract rescale : Bool) (store : String → String → ℚ)
    (keys : List String) (c : Category) : Option ℚ :=
  match c.benchmarks.filterMap (benchmark_score subtract rescale store keys) with
  | [] => none
  | ss => some (mean ss)

/-- Modelled from the spec: the composite result (§4.3 step 6 and output):
one `icl/metrics/model_gauntlet/{category}` entry per scored category in
taxonomy order, an omitted category producing no entry at all, followed by
the reserved `icl/metrics/model_gauntlet/average` entry holding the equal
weight mean over the scored categories. -/
def composite_result (tax : Taxonomy) (keys : List String)
    (store : String → String → ℚ) : List (String × ℚ) :=
  let scored := tax.categories.filterMap (fun c =>
    (category_score tax.subtract_random_baseline tax.rescale_accuracy
      store keys c).map (fun s => (c.name, s)))
  scored.map (fun p => ("icl/metrics/model_gauntlet/" ++ p.1, p.2))
    ++ [("icl/metrics/model_gauntlet/average", mean (scored.map Prod.snd))]

/-- Witness fixtures for the composite scorer: the `world_knowledge`
category with two matched zero-baseline benchmarks and one unmatched one,
a fully unmatched `commonsense_reasoning` category, the logger keys the
matched benchmarks produce, and a store reporting raw accuracy 1/4
everywhere. -/
def wBenchJeopardy : Benchmark := ⟨"jeopardy", 10, 0⟩

def wBenchWikidata : Benchmark := ⟨"bigbench_qa_wikidata", 10, 0⟩

def wBenchArcEasy : Benchmark := ⟨"arc_easy", 10, 0⟩

def wBenchCopa : Benchmark := ⟨"copa", 0, 0⟩

def wCatWK : Category :=
  ⟨"world_knowledge", [wBenchJeopardy, wBenchWikidata, wBenchArcEasy]⟩

def wCatCS : Category := ⟨"commonsense_reasoning", [wBenchCopa]⟩

def wTaxW : Taxonomy := ⟨[wCatWK, wCatCS], true, true⟩

def wKeysW : List String :=
  ["metrics/jeopardy/10-shot/american_history/InContextLearningLMAccuracy",
   "metrics/jeopardy/10-shot/science/InContextLearningLMAccuracy",
   "metrics/bigbench_qa_wikidata/10-shot/InContextLearningLMAccuracy"]

def wStoreW : String → String → ℚ := fun _ _ => 1/4

lemma foldl_pair_append {α β γ : Type} (f : γ → List α) (g : γ → List β)
    (l : List γ) :
    ∀ acc : List α × List β,
      l.foldl (fun acc c => (acc.1 ++ f c, acc.2 ++ g c)) acc
        = (acc.1 ++ l.flatMap f, acc.2 ++ l.flatMap g) := by
  induction l with
  | nil => intro acc; simp
  | cons c l ih => intro acc; simp [ih, List.append_assoc]

lemma shot_slash_append (x : String) :
    "-shot" ++ ("/" ++ x) = "-shot/" ++ x := by
  rw [← String.append_assoc]
  have h : "-shot" ++ "/" = "-shot/" := rfl
  rw [h]

lemma category_step_foldl (label : String) (ms : List String) :
    ∀ (cats : List String) (acc : List Evaluator × List String),
      cats.foldl (category_step label ms) acc
        = (acc.1 ++ cats.map (fun c => ⟨label ++ "/" ++ c, ms, none⟩),
           acc.2 ++ cats.flatMap (fun c => ms.map
             (fun m => "metrics/" ++ label ++ "/" ++ c ++ "/" ++ m))) := by
  intro cats
  induction cats with
  | nil => intro acc; simp
  | cons c cs ih => intro acc; simp [category_step, ih, List.append_assoc]

lemma fewshot_step_eq (loader : TaskCfg → Nat → LoaderResult)
    (subset : Option Nat) (t : TaskCfg) (acc : List Evaluator × List String)
    (n : Nat) :
    fewshot_step loader subset t acc n
      = (acc.1 ++ specUnitEvaluators loader subset t n,
         acc.2 ++ specUnitKeys loader t n) := by
  rcases hc : t.has_categories with _ | b
  · rcases hl : loader t n with _ | cats <;>
      simp [fewshot_step, specUnitEvaluators, specUnitKeys, hc, hl,
        String.append_assoc, shot_slash_append]
  · rcases b with _ | _ <;> rcases hl : loader t n with _ | cats <;>
      simp [fewshot_step, specUnitEvaluators, specUnitKeys, hc, hl,
        category_step_foldl, String.append_assoc, shot_slash_append]

lemma fewshot_foldl_eq (loader : TaskCfg → Nat → LoaderResult)
    (subset : Option Nat) (t : TaskCfg) :
    ∀ (ns : List Nat) (acc : List Evaluator × List String),
      ns.foldl (fewshot_step loader subset t) acc
        = (acc.1 ++ ns.flatMap (specUnitEvaluators loader subset t),
           acc.2 ++ ns.flatMap (specUnitKeys loader t)) := by
  intro ns
  induction ns with
  | nil => intro acc; simp
  | cons n ns ih => intro acc; simp [fewshot_step_eq, ih, List.append_assoc]

lemma build_icl_loop_spec (loader : TaskCfg → Nat → LoaderResult)
    (subset : Option Nat) (dmsl dbs : Nat) :
    ∀ (cfgs : List RawCfg) (evs : List Evaluator) (keys : List String),
      build_icl_loop loader subset dmsl dbs cfgs evs keys
        = (validate_all dmsl dbs cfgs).map
            (fun ts =>
              (evs ++ ts.flatMap (specTaskEvaluators loader subset),
               keys ++ ts.flatMap (specTaskKeys loader))) := by
  intro cfgs
  induction cfgs with
  | nil => intro evs keys; simp [build_icl_loop, validate_all, Except.map]
  | cons cfg rest ih =>
    intro evs keys
    simp only [build_icl_loop, validate_all]
    cases hv : validate_cfg dmsl dbs cfg with
    | error e => simp [Except.map]
    | ok t =>
      simp only [fewshot_foldl_eq]
      rw [ih]
      cases hrest : validate_all dmsl dbs rest with
      | error e => simp [Except.map]
      | ok ts =>
        simp [Except.map, specTaskEvaluators, specTaskKeys, List.append_assoc]

lemma flatMap_keys_length {α : Type} (K : α → List String)
    (E : α → List Evaluator)
    (h : ∀ a, (K a).length
      = ((E a).map (fun e => e.metric_names.length)).sum) :
    ∀ l : List α,
      (l.flatMap K).length
        = ((l.flatMap E).map (fun e => e.metric_names.length)).sum := by
  intro l
  induction l with
  | nil => simp
  | cons a l ih => simp [List.flatMap_cons, h a, ih]

lemma unit_keys_length (loader : TaskCfg → Nat → LoaderResult)
    (subset : Option Nat) (t : TaskCfg) (n : Nat) :
    (specUnitKeys loader t n).length
      = ((specUnitEvaluators loader subset t n).map
          (fun e => e.metric_names.length)).sum := by
  rcases hc : t.has_categories with _ | b
  · rcases hl : loader t n with _ | cats <;>
      simp [specUnitKeys, specUnitEvaluators, hc, hl]
  · rcases b with _ | _ <;> rcases hl : loader t n with _ | cats <;>
      simp [specUnitKeys, specUnitEvaluators, hc, hl, List.length_flatMap,
        List.map_map, Function.comp_def, List.length_map]

lemma task_keys_length (loader : TaskCfg → Nat → LoaderResult)
    (subset : Option Nat) (t : TaskCfg) :
    (specTaskKeys loader t).length
      = ((specTaskEvaluators loader subset t).map
          (fun e => e.metric_names.length)).sum :=
  flatMap_keys_length _ _ (unit_keys_length loader subset t) t.num_fewshot

/-- C1: `build_icl_evaluators` emits, per task entry and per fewshot value,
exactly the canonical keys `metrics/{label}/{n}-shot/{metric_name}`
(uncategorized unit) and `metrics/{label}/{n}-shot/{subcategory}/{metric_name}`
(categorized unit), one key per name in `metric_names` order, appended in the
same order the evaluator units are created: `specTaskKeys` and
`specTaskEvaluators` spell out exactly these formats and that order. -/
theorem build_icl_evaluators_wire_format
    (cfgs : List RawCfg) (loader : TaskCfg → Nat → LoaderResult)
    (dmsl dbs : Nat) (subset : Option Nat) (ts : List TaskCfg)
    (hval : validate_all dmsl dbs cfgs = .ok ts) :
    build_icl_evaluators cfgs loader dmsl dbs subset
      = .ok (ts.flatMap (specTaskEvaluators loader subset),
             ts.flatMap (specTaskKeys loader)) := by
  unfold build_icl_evaluators
  rw [build_icl_loop_spec, hval]
  simp [Except.map]

theorem build_icl_evaluators_wire_format_witness :
    validate_all 1024 4 [wCfgJeopardy, wCfgWikidata]
      = .ok [wTaskJeopardy, wTaskWikidata]
    ∧ build_icl_evaluators [wCfgJeopardy, wCfgWikidata] wLoader 1024 4 (some 2)
      = .ok ([⟨"jeopardy/10-shot/american_history",
                ["InContextLearningLMAccuracy"], none⟩,
              ⟨"jeopardy/10-shot/science",
                ["InContextLearningLMAccuracy"], none⟩,
              ⟨"bigbench_qa_wikidata/10-shot",
                ["InContextLearningLMAccuracy"], some 2⟩],
             ["metrics/jeopardy/10-shot/american_history/InContextLearningLMAccuracy",
              "metrics/jeopardy/10-shot/science/InContextLearningLMAccuracy",
              "metrics/bigbench_qa_wikidata/10-shot/InContextLearningLMAccuracy"]) := by
  refine ⟨by rfl, ?_⟩
  have h := build_icl_evaluators_wire_format [wCfgJeopardy, wCfgWikidata]
    wLoader 1024 4 (some 2) [wTaskJeopardy, wTaskWikidata] (by rfl)
  rw [h]
  rfl

/-- C3: after `build_icl_evaluators` returns, the length of `logger_keys`
equals the sum, over all evaluator units created, of the number of metric
names of the corresponding task (each unit carries its task's
`metric_names` list). -/
theorem logger_keys_length_invariant
    (cfgs : List RawCfg) (loader : TaskCfg → Nat → LoaderResult)
    (dmsl dbs : Nat) (subset : Option Nat)
    (evs : List Evaluator) (keys : List String)
    (h : build_icl_evaluators cfgs loader dmsl dbs subset = .ok (evs, keys)) :
    keys.length = (evs.map (fun e => e.metric_names.length)).sum := by
  unfold build_icl_evaluators at h
  rw [build_icl_loop_spec] at h
  cases hval : validate_all dmsl dbs cfgs with
  | error e => rw [hval] at h; simp [Except.map] at h
  | ok ts =>
    rw [hval] at h
    simp only [Except.map, List.nil_append] at h
    obtain ⟨h1, h2⟩ := Prod.mk.injEq .. ▸ Except.ok.injEq .. ▸ h
    subst h1
    subst h2
    exact flatMap_keys_length _ _ (task_keys_length loader subset) ts

theorem logger_keys_length_invariant_witness :
    (["metrics/jeopardy/10-shot/american_history/InContextLearningLMAccuracy",
      "metrics/jeopardy/10-shot/science/InContextLearningLMAccuracy",
      "metrics/bigbench_qa_wikidata/10-shot/InContextLearningLMAccuracy"]
        : List String).length
      = (([⟨"jeopardy/10-shot/american_history",
             ["InContextLearningLMAccuracy"], none⟩,
           ⟨"jeopardy/10-shot/science",
             ["InContextLearningLMAccuracy"], none⟩,
           ⟨"bigbench_qa_wikidata/10-shot",
             ["InContextLearningLMAccuracy"], none⟩] : List Evaluator).map
          (fun e => e.metric_names.length)).sum :=
  logger_keys_length_invariant [wCfgJeopardy, wCfgWikidata] wLoader 1024 4
    none _ _ (by rfl)

/-- C8: the `logger_keys` component returned by `build_icl_evaluators` is
identical for every value of the subset cap `icl_subset_num_batches`
(including `none`): the cap never changes key generation. -/
theorem logger_keys_independent_of_subset_cap
    (cfgs : List RawCfg) (loader : TaskCfg → Nat → LoaderResult)
    (dmsl dbs : Nat) (s1 s2 : Option Nat) :
    (build_icl_evaluators cfgs loader dmsl dbs s1).map Prod.snd
      = (build_icl_evaluators cfgs loader dmsl dbs s2).map Prod.snd := by
  unfold build_icl_evaluators
  rw [build_icl_loop_spec, build_icl_loop_spec]
  cases validate_all dmsl dbs cfgs <;> simp [Except.map]

/-- C5: a raw task entry missing any of the required fields `label`,
`dataset_uri` (non-null), `icl_task_type`, `num_fewshot` fails resolution
with a configuration error naming a field that is indeed missing (the four
leading `assert`s of `_validate_cfg`, checked in source order). -/
theorem validate_cfg_missing_required_field
    (dmsl dbs : Nat) (cfg : RawCfg)
    (h : cfg.label = none ∨ cfg.dataset_uri = none
      ∨ cfg.dataset_uri = some none ∨ cfg.icl_task_type = none
      ∨ cfg.num_fewshot = none) :
    ∃ f, validate_cfg dmsl dbs cfg = .error f
      ∧ ((f = "label" ∧ cfg.label = none)
        ∨ (f = "dataset_uri"
            ∧ (cfg.dataset_uri = none ∨ cfg.dataset_uri = some none))
        ∨ (f = "icl_task_type" ∧ cfg.icl_task_type = none)
        ∨ (f = "num_fewshot" ∧ cfg.num_fewshot = none)) := by
  rcases hl : cfg.label with _ | label
  · exact ⟨"label", by simp [validate_cfg, hl], Or.inl ⟨rfl, rfl⟩⟩
  · rcases hd : cfg.dataset_uri with _ | du
    · exact ⟨"dataset_uri", by simp [validate_cfg, hl, hd],
        Or.inr (Or.inl ⟨rfl, Or.inl rfl⟩)⟩
    · rcases du with _ | uri
      · exact ⟨"dataset_uri", by simp [validate_cfg, hl, hd],
          Or.inr (Or.inl ⟨rfl, Or.inr rfl⟩)⟩
      · rcases ht : cfg.icl_task_type with _ | taskType
        · exact ⟨"icl_task_type", by simp [validate_cfg, hl, hd, ht],
            Or.inr (Or.inr (Or.inl ⟨rfl, rfl⟩))⟩
        · rcases hn : cfg.num_fewshot with _ | ns
          · exact ⟨"num_fewshot", by simp [validate_cfg, hl, hd, ht, hn],
              Or.inr (Or.inr (Or.inr ⟨rfl, rfl⟩))⟩
          · exfalso
            rcases h with h | h | h | h | h <;> simp_all

theorem validate_cfg_missing_required_field_witness :
    validate_cfg 1024 4 wCfgNoTaskType = .error "icl_task_type" := by
  obtain ⟨f, hf, hc⟩ := validate_cfg_missing_required_field 1024 4
    wCfgNoTaskType (Or.inr (Or.inr (Or.inr (Or.inl rfl))))
  rcases hc with ⟨rfl, hx⟩ | ⟨rfl, hx⟩ | ⟨rfl, hx⟩ | ⟨rfl, hx⟩ <;>
    first
      | exact hf
      | simp [wCfgNoTaskType] at hx

/-- C6: a raw task entry with every required field present resolves
successfully (provided `metric_names` is present or the task type is one of
the five known ones), filling each absent optional field with exactly the
documented default — `metric_names` from the `task_type` table,
`prompt_string = ""`, `example_delimiter = "\n"`,
`continuation_delimiter = " "`, `max_seq_len`/`batch_size` from the
caller-supplied defaults, `pass_at_k = 1`, `num_beams = 20` — and leaving
every present field unchanged. -/
theorem validate_cfg_fills_documented_defaults
    (dmsl dbs : Nat) (cfg : RawCfg) (label uri taskType : String)
    (ns : List Nat)
    (hl : cfg.label = some label) (hd : cfg.dataset_uri = some (some uri))
    (ht : cfg.icl_task_type = some taskType) (hn : cfg.num_fewshot = some ns)
    (hm : cfg.metric_names.isSome = true
      ∨ taskType ∈ ["language_modeling", "multiple_choice", "schema",
          "question_answering", "code_evaluation"]) :
    validate_cfg dmsl dbs cfg = .ok
      { label := label
        dataset_uri := uri
        icl_task_type := taskType
        num_fewshot := ns
        metric_names :=
          match cfg.metric_names with
          | some ms => ms
          | none =>
            if taskType = "language_modeling" then
              ["InContextLearningLMAccuracy"]
            else if taskType = "multiple_choice" then
              ["InContextLearningMultipleChoiceAccuracy"]
            else if taskType = "schema" then
              ["InContextLearningMultipleChoiceAccuracy"]
            else if taskType = "question_answering" then
              ["InContextLearningQAAccuracy"]
            else ["InContextLearningCodeEvalAccuracy"]
        prompt_string := cfg.prompt_string.getD ""
        example_delimiter := cfg.example_delimiter.getD "\n"
        continuation_delimiter := cfg.continuation_delimiter.getD " "
        max_seq_len := cfg.max_seq_len.getD dmsl
        batch_size := cfg.batch_size.getD dbs
        pass_at_k := cfg.pass_at_k.getD 1
        num_beams := cfg.num_beams.getD 20
        has_categories := cfg.has_categories } := by
  rcases hms : cfg.metric_names with _ | ms
  · rcases hm with hm | hm
    · rw [hms] at hm; simp at hm
    · simp only [List.mem_cons, List.mem_singleton] at hm
      rcases hm with rfl | rfl | rfl | rfl | rfl | hm <;>
        simp_all [validate_cfg]
  · simp [validate_cfg, hl, hd, ht, hn, hms]

theorem validate_cfg_fills_documented_defaults_witness :
    validate_cfg 1024 4 wCfgWikidata = .ok wTaskWikidata := by
  have h := validate_cfg_fills_documented_defaults 1024 4 wCfgWikidata
    "bigbench_qa_wikidata"
    "eval/local_data/world_knowledge/bigbench_qa_wikidata.jsonl"
    "language_modeling" [10] rfl rfl rfl rfl (Or.inr (by simp))
  rw [h]
  rfl

lemma retry_loop_all_fail {E M : Type} (attempt : Nat → Except E M)
    (errs : Nat → E) (n : Nat)
    (hfail : ∀ i, i < n → attempt i = .error (errs i)) :
    ∀ k r, n - r = k → r < n →
      retry_loop attempt n r = .error (errs (n - 1)) := by
  intro k
  induction k with
  | zero => intro r hk hr; omega
  | succ k ih =>
    intro r hk hr
    rw [retry_loop]
    rw [dif_pos hr, hfail r hr]
    dsimp only
    by_cases hlast : r + 1 ≥ n
    · have hr1 : r = n - 1 := by omega
      rw [if_pos hlast, hr1]
    · rw [if_neg hlast]
      exact ih (r + 1) (by omega) (by omega)

/-- C9: both `load_model` and `load_peft_model` retry model construction
sequentially, consulting at most the first `num_retries` attempts, and when
every attempt raises, the exception of the last attempt (index
`num_retries - 1`) is re-raised after the retries are exhausted. -/
theorem load_model_reraises_last_exception {E M : Type}
    (attempt peft_attempt : Nat → Except E M) (errs perrs : Nat → E)
    (num_retries : Nat) (hn : 0 < num_retries)
    (hfail : ∀ i, i < num_retries → attempt i = .error (errs i))
    (hpfail : ∀ i, i < num_retries → peft_attempt i = .error (perrs i)) :
    load_model attempt num_retries = .error (errs (num_retries - 1))
    ∧ load_peft_model peft_attempt num_retries
        = .error (perrs (num_retries - 1)) :=
  ⟨retry_loop_all_fail attempt errs num_retries hfail num_retries 0 rfl hn,
   retry_loop_all_fail peft_attempt perrs num_retries hpfail num_retries 0
     rfl hn⟩

theorem load_model_reraises_last_exception_witness :
    load_model (fun _ => (Except.error "CUDA out of memory"
        : Except String Unit)) 3
      = .error "CUDA out of memory"
    ∧ load_peft_model (fun _ => (Except.error "missing adapter"
        : Except String Unit)) 3
      = .error "missing adapter" :=
  load_model_reraises_last_exception _ _
    (fun _ => "CUDA out of memory") (fun _ => "missing adapter") 3
    (by norm_num) (fun _ _ => rfl) (fun _ _ => rfl)

lemma foldl_step_eq {α β : Type} (step : List β → α → List β)
    (g : α → List β) (hstep : ∀ df x, step df x = df ++ g x) :
    ∀ (l : List α) (df : List β), l.foldl step df = df ++ l.flatMap g := by
  intro l
  induction l with
  | nil => intro df; simp
  | cons x l ih =>
    intro df
    rw [List.foldl_cons, hstep, ih, List.flatMap_cons, List.append_assoc]

lemma flatMap_singleton_map {α β : Type} (f : α → β) (l : List α) :
    (l.flatMap fun x => [f x]) = l.map f := by
  induction l with
  | nil => simp
  | cons x l ih => simp [ih]

lemma metric_step_eq (btax : List (String × String))
    (model num_shot bench : String) (df : List ReportRow)
    (mEntry : String × List SubScore) :
    metric_step btax model num_shot bench df mEntry
      = df ++ group_rows btax model num_shot bench mEntry.2 := by
  unfold metric_step group_rows
  by_cases h1 : mEntry.2.length = 1
  · simp [h1]
  · rw [if_neg h1, if_neg h1]
    rw [foldl_step_eq (subscore_step ((btax.lookup bench).getD "")
        num_shot model) _ (fun df s => rfl)]
    rw [flatMap_singleton_map, List.append_assoc]
    rfl

lemma benchmark_step_eq (btax : List (String × String))
    (model num_shot : String) (df : List ReportRow)
    (bEntry : String × List (String × List SubScore)) :
    benchmark_step btax model num_shot df bEntry
      = df ++ bEntry.2.flatMap
          (fun mEntry => group_rows btax model num_shot bEntry.1 mEntry.2) :=
  foldl_step_eq _ _ (metric_step_eq btax model num_shot bEntry.1) bEntry.2 df

lemma numshot_step_eq (btax : List (String × String)) (model : String)
    (df : List ReportRow)
    (nsEntry : String × List (String × List (String × List SubScore))) :
    numshot_step btax model df nsEntry
      = df ++ nsEntry.2.flatMap (fun bEntry => bEntry.2.flatMap
          (fun mEntry =>
            group_rows btax model nsEntry.1 bEntry.1 mEntry.2)) :=
  foldl_step_eq _ _ (benchmark_step_eq btax model nsEntry.1) nsEntry.2 df

lemma render_results_eq (btax : List (String × String)) (model : String)
    (res : Results) :
    render_results btax model res
      = res.flatMap (fun nsEntry => nsEntry.2.flatMap (fun bEntry =>
          bEntry.2.flatMap (fun mEntry =>
            group_rows btax model nsEntry.1 bEntry.1 mEntry.2))) := by
  unfold render_results
  rw [foldl_step_eq _ _ (numshot_step_eq btax model) res []]
  simp

/-- C7: the report table built by `calculate_markdown_results` is exactly
the concatenation, over the grouped accuracy records, of `group_rows`: a
(fewshot, benchmark, metric) group with one record yields exactly one row
with `Subtask = None` and that record's accuracy, and a group with N > 1
records yields exactly N + 1 rows — an `Average` row whose accuracy is the
mean of the N values, followed by one row per record with its own
subcategory label. -/
theorem markdown_results_rows_per_group (metric_keys : List String)
    (store : String → String → Option ℚ) (btax : List (String × String))
    (model : String) :
    calculate_markdown_results metric_keys store btax model
      = (collect_results store metric_keys []).map (fun res =>
          res.flatMap (fun nsEntry => nsEntry.2.flatMap (fun bEntry =>
            bEntry.2.flatMap (fun mEntry =>
              group_rows btax model nsEntry.1 bEntry.1 mEntry.2)))) := by
  unfold calculate_markdown_results
  cases collect_results store metric_keys [] with
  | error e => rfl
  | ok res => simp [Except.map, render_results_eq]

/-- C10: in a benchmark group with more than one record, only the leading
`Average` row carries the benchmark name; every following per-subcategory
row has its `Benchmark` column set to `None`. -/
theorem report_subtask_rows_carry_no_benchmark
    (btax : List (String × String)) (model ns bench metric : String)
    (subs : List SubScore) (h : 1 < subs.length) :
    (render_results btax model [(ns, [(bench, [(metric, subs)])])]).head?
        = some { category := (btax.lookup bench).getD ""
                 benchmark := some bench
                 subtask := some "Average"
                 accuracy := (subs.map SubScore.val).sum / subs.length
                 number_few_shot := ns
                 model := model }
    ∧ ∀ row ∈ (render_results btax model
          [(ns, [(bench, [(metric, subs)])])]).tail,
        row.benchmark = none := by
  have hr : render_results btax model [(ns, [(bench, [(metric, subs)])])]
      = group_rows btax model ns bench subs := by
    rw [render_results_eq]
    simp
  rw [hr]
  unfold group_rows
  rw [if_neg (by omega)]
  refine ⟨rfl, ?_⟩
  intro row hrow
  simp only [List.tail_cons, List.mem_map] at hrow
  obtain ⟨s, _, rfl⟩ := hrow
  rfl

theorem report_subtask_rows_carry_no_benchmark_witness :
    (render_results [("jeopardy", "world_knowledge")] "mpt-7b"
        [("10-shot", [("jeopardy", [("InContextLearningLMAccuracy",
            [⟨1/4, "american_history"⟩, ⟨1/4, "science"⟩])])])]).head?
      = some { category := "world_knowledge"
               benchmark := some "jeopardy"
               subtask := some "Average"
               accuracy := 1/4
               number_few_shot := "10-shot"
               model := "mpt-7b" } := by
  have h := (report_subtask_rows_carry_no_benchmark
    [("jeopardy", "world_knowledge")] "mpt-7b" "10-shot" "jeopardy"
    "InContextLearningLMAccuracy"
    [⟨1/4, "american_history"⟩, ⟨1/4, "science"⟩] (by norm_num)).1
  rw [h]
  norm_num [List.lookup]

lemma sum_const_of_mem (l : List ℚ) (q : ℚ) (h : ∀ x ∈ l, x = q) :
    l.sum = q * l.length := by
  induction l with
  | nil => simp
  | cons a t ih =>
    have ha := h a (by simp)
    have ht := ih (fun x hx => h x (by simp [hx]))
    simp [ha, ht]
    ring

lemma mean_const (l : List ℚ) (q : ℚ) (hne : l ≠ []) (h : ∀ x ∈ l, x = q) :
    mean l = q := by
  have hlen : (l.length : ℚ) ≠ 0 := by
    have h0 : l.length ≠ 0 := by
      simpa [List.length_eq_zero] using hne
    exact_mod_cast h0
  unfold mean
  rw [sum_const_of_mem l q h]
  field_simp

lemma benchmark_score_none_of_unmatched (sub resc : Bool)
    (store : String → String → ℚ) (keys : List String) (b : Benchmark)
    (h : matched_keys keys b = []) :
    benchmark_score sub resc store keys b = none := by
  unfold benchmark_score
  rw [h]

lemma benchmark_score_ne_none_of_matched (sub resc : Bool)
    (store : String → String → ℚ) (keys : List String) (b : Benchmark)
    (h : matched_keys keys b ≠ []) :
    benchmark_score sub resc store keys b ≠ none := by
  unfold benchmark_score
  cases hm : matched_keys keys b with
  | nil => exact absurd hm h
  | cons d ds => simp

lemma category_score_none_of_all_unmatched (sub resc : Bool)
    (store : String → String → ℚ) (keys : List String) (c : Category)
    (h : ∀ b ∈ c.benchmarks, matched_keys keys b = []) :
    category_score sub resc store keys c = none := by
  unfold category_score
  have hnil : c.benchmarks.filterMap (benchmark_score sub resc store keys)
      = [] := by
    rw [List.filterMap_eq_nil_iff]
    intro b hb
    exact benchmark_score_none_of_unmatched sub resc store keys b (h b hb)
  rw [hnil]

lemma category_score_ne_none_of_matched (sub resc : Bool)
    (store : String → String → ℚ) (keys : List String) (c : Category)
    (b : Benchmark) (hb : b ∈ c.benchmarks)
    (h : matched_keys keys b ≠ []) :
    category_score sub resc store keys c ≠ none := by
  unfold category_score
  cases hss : c.benchmarks.filterMap (benchmark_score sub resc store keys) with
  | nil =>
    exfalso
    rw [List.filterMap_eq_nil_iff] at hss
    exact benchmark_score_ne_none_of_matched sub resc store keys b h
      (hss b hb)
  | cons s ss => simp

lemma benchmark_score_quarter (store : String → String → ℚ)
    (keys : List String) (b : Benchmark)
    (hb0 : matched_keys keys b ≠ [] → b.random_baseline = 0)
    (hst : ∀ d ∈ matched_keys keys b, store d.dl_label d.metric = 1/4) :
    ∀ s, benchmark_score true true store keys b = some s → s = 1/4 := by
  intro s hs
  unfold benchmark_score at hs
  cases hm : matched_keys keys b with
  | nil => rw [hm] at hs; simp at hs
  | cons d ds =>
    rw [hm] at hs
    simp only [Option.some.injEq] at hs
    have hb := hb0 (by rw [hm]; simp)
    rw [← hs]
    apply mean_const _ _ (by simp)
    intro x hx
    rw [List.mem_map] at hx
    obtain ⟨d', hd', rfl⟩ := hx
    rw [hst d' (hm ▸ hd'), hb]
    norm_num [rescale_value]

lemma category_score_quarter (store : String → String → ℚ)
    (keys : List String) (c : Category)
    (hb0 : ∀ b ∈ c.benchmarks, matched_keys keys b ≠ [] →
      b.random_baseline = 0)
    (hst : ∀ b ∈ c.benchmarks, ∀ d ∈ matched_keys keys b,
      store d.dl_label d.metric = 1/4) :
    ∀ s, category_score true true store keys c = some s → s = 1/4 := by
  intro s hs
  unfold category_score at hs
  cases hss : c.benchmarks.filterMap
      (benchmark_score true true store keys) with
  | nil => rw [hss] at hs; simp at hs
  | cons v vs =>
    rw [hss] at hs
    simp only [Option.some.injEq] at hs
    rw [← hs]
    apply mean_const _ _ (by simp)
    intro x hx
    have hx' : x ∈ c.benchmarks.filterMap
        (benchmark_score true true store keys) := hss ▸ hx
    rw [List.mem_filterMap] at hx'
    obtain ⟨b, hb, hbs⟩ := hx'
    exact benchmark_score_quarter store keys b (hb0 b hb) (hst b hb) x hbs

/-- C2: with `subtract_random_baseline` and `rescale_accuracy` both true and
every matched benchmark carrying `random_baseline = 0`, if every matched
metric reports raw accuracy 1/4 then every scored category's composite
entry is 1/4 and so is the reserved average entry. -/
theorem gauntlet_zero_baseline_composite (tax : Taxonomy)
    (keys : List String) (store : String → String → ℚ)
    (hsub : tax.subtract_random_baseline = true)
    (hres : tax.rescale_accuracy = true)
    (hbase : ∀ c ∈ tax.categories, ∀ b ∈ c.benchmarks,
      matched_keys keys b ≠ [] → b.random_baseline = 0)
    (hstore : ∀ c ∈ tax.categories, ∀ b ∈ c.benchmarks,
      ∀ d ∈ matched_keys keys b, store d.dl_label d.metric = 1/4) :
    (∀ c ∈ tax.categories, ∀ s,
        category_score tax.subtract_random_baseline tax.rescale_accuracy
          store keys c = some s → s = 1/4)
    ∧ (∀ c ∈ tax.categories,
        category_score tax.subtract_random_baseline tax.rescale_accuracy
          store keys c ≠ none →
        ("icl/metrics/model_gauntlet/" ++ c.name, (1/4 : ℚ))
          ∈ composite_result tax keys store)
    ∧ ((∃ c ∈ tax.categories,
          category_score tax.subtract_random_baseline tax.rescale_accuracy
            store keys c ≠ none) →
        ("icl/metrics/model_gauntlet/average", (1/4 : ℚ))
          ∈ composite_result tax keys store) := by
  rw [hsub, hres]
  have hA : ∀ c ∈ tax.categories, ∀ s,
      category_score true true store keys c = some s → s = 1/4 :=
    fun c hc => category_score_quarter store keys c (hbase c hc) (hstore c hc)
  refine ⟨hA, ?_, ?_⟩
  · intro c hc hne
    unfold composite_result
    rw [hsub, hres]
    apply List.mem_append_left
    rw [List.mem_map]
    cases hcs : category_score true true store keys c with
    | none => exact absurd hcs hne
    | some s =>
      refine ⟨(c.name, s), ?_, ?_⟩
      · rw [List.mem_filterMap]
        exact ⟨c, hc, by rw [hcs]; rfl⟩
      · have := hA c hc s hcs
        simp [this]
  · intro hex
    unfold composite_result
    rw [hsub, hres]
    apply List.mem_append_right
    have hmean : mean ((tax.categories.filterMap (fun c =>
        (category_score true true store keys c).map
          (fun s => (c.name, s)))).map Prod.snd) = 1/4 := by
      apply mean_const
      · obtain ⟨c, hc, hne⟩ := hex
        cases hcs : category_score true true store keys c with
        | none => exact absurd hcs hne
        | some s =>
          intro hnil
          rw [List.map_eq_nil_iff, List.filterMap_eq_nil_iff] at hnil
          have := hnil c hc
          rw [hcs] at this
          simp at this
      · intro x hx
        rw [List.mem_map] at hx
        obtain ⟨⟨nm, s⟩, hmem, rfl⟩ := hx
        rw [List.mem_filterMap] at hmem
        obtain ⟨c, hc, hcs⟩ := hmem
        cases hcs' : category_score true true store keys c with
        | none => rw [hcs'] at hcs; simp at hcs
        | some v =>
          rw [hcs'] at hcs
          simp only [Option.map_some', Option.some.injEq] at hcs
          have hv : v = 1/4 := hA c hc v hcs'
          cases hcs
          simpa using hv
    rw [hmean]
    simp

lemma string_append_left_cancel {s a b : String} (h : s ++ a = s ++ b) :
    a = b := by
  have hd : s.data ++ a.data = s.data ++ b.data := by
    have h2 := congrArg String.data h
    simpa [String.data_append] using h2
  exact String.ext (List.append_cancel_left hd)

/-- C4: a benchmark whose (name, fewshot) matches no decomposed key is
skipped without error and contributes nothing to its category's average
(deleting it from the benchmark list leaves the category score unchanged),
and a category every benchmark of which is skipped produces no key at all
in the composite result — its entry is absent, never reported as 0.  The
name hypotheses rule out another identically-named scored category and the
reserved `average` name. -/
theorem gauntlet_unmatched_benchmark_skipped
    (tax : Taxonomy) (store : String → String → ℚ) (keys : List String)
    (nm : String) (bs₁ bs₂ : List Benchmark) (b : Benchmark) (c : Category)
    (hb : matched_keys keys b = [])
    (_hc : c ∈ tax.categories)
    (hall : ∀ c' ∈ tax.categories, c'.name = c.name →
      ∀ b' ∈ c'.benchmarks, matched_keys keys b' = [])
    (hname : c.name ≠ "average") :
    category_score tax.subtract_random_baseline tax.rescale_accuracy store
        keys ⟨nm, bs₁ ++ b :: bs₂⟩
      = category_score tax.subtract_random_baseline tax.rescale_accuracy
          store keys ⟨nm, bs₁ ++ bs₂⟩
    ∧ (composite_result tax keys store).lookup
        ("icl/metrics/model_gauntlet/" ++ c.name) = none := by
  constructor
  · unfold category_score
    simp [List.filterMap_append, List.filterMap_cons,
      benchmark_score_none_of_unmatched tax.subtract_random_baseline
        tax.rescale_accuracy store keys b hb]
  · rw [List.lookup_eq_none_iff]
    intro p hp
    unfold composite_result at hp
    rw [List.mem_append] at hp
    rcases hp with hp | hp
    · rw [List.mem_map] at hp
      obtain ⟨⟨nm', s⟩, hmem, rfl⟩ := hp
      rw [List.mem_filterMap] at hmem
      obtain ⟨c', hc', hcs⟩ := hmem
      cases hcs' : category_score tax.subtract_random_baseline
          tax.rescale_accuracy store keys c' with
      | none => rw [hcs'] at hcs; simp at hcs
      | some v =>
        rw [hcs'] at hcs
        simp only [Option.map_some', Option.some.injEq] at hcs
        have hnm' : nm' = c'.name := by cases hcs; rfl
        subst hnm'
        have hne : c'.name ≠ c.name := by
          intro he
          have := category_score_none_of_all_unmatched
            tax.subtract_random_baseline tax.rescale_accuracy store keys c'
            (hall c' hc' he)
          rw [this] at hcs'
          cases hcs'
        simp only [bne_iff_ne, ne_eq, Prod.fst]
        intro hkey
        exact hne (string_append_left_cancel hkey).symm
    · rw [List.mem_singleton] at hp
      subst hp
      simp only [bne_iff_ne, ne_eq, Prod.fst]
      intro hkey
      have h1 : "icl/metrics/model_gauntlet/" ++ c.name
          = "icl/metrics/model_gauntlet/" ++ "average" := hkey
      exact hname (string_append_left_cancel h1)

theorem gauntlet_zero_baseline_composite_witness :
    ("icl/metrics/model_gauntlet/average", (1/4 : ℚ))
      ∈ composite_result wTaxW wKeysW wStoreW := by
  refine (gauntlet_zero_baseline_composite wTaxW wKeysW wStoreW rfl rfl
    ?_ ?_).2.2 ?_
  · intro c hc b hb hm
    rcases hc with _ | ⟨_, hc⟩
    · rcases hb with _ | ⟨_, hb⟩
      · rfl
      · rcases hb with _ | ⟨_, hb⟩
        · rfl
        · rcases hb with _ | ⟨_, hb⟩
          · rfl
          · cases hb
    · rcases hc with _ | ⟨_, hc⟩
      · rcases hb with _ | ⟨_, hb⟩
        · rfl
        · cases hb
      · cases hc
  · intro c hc b hb d hd
    rfl
  · exact ⟨wCatWK, List.Mem.head _,
      category_score_ne_none_of_matched true true wStoreW wKeysW wCatWK
        wBenchJeopardy (List.Mem.head _) (by decide)⟩

theorem gauntlet_unmatched_benchmark_skipped_witness :
    (composite_result wTaxW wKeysW wStoreW).lookup
        "icl/metrics/model_gauntlet/commonsense_reasoning" = none := by
  have h := (gauntlet_unmatched_benchmark_skipped wTaxW wStoreW wKeysW
    "world_knowledge" [] [] wBenchCopa wCatCS (by decide)
    (List.Mem.tail _ (List.Mem.head _)) ?_ (by decide)).2
  · exact h
  · intro c' hc' heq b' hb'
    rcases hc' with _ | ⟨_, hc'⟩
    · exact absurd heq (by decide)
    · rcases hc' with _ | ⟨_, hc'⟩
      · rcases hb' with _ | ⟨_, hb'⟩
        · decide
        · cases hb'
      · cases hc'

end LlmFoundry
